import Mathlib

/-!
Shallow embedding of the PAPI high-level instrumentation engine
(`src/vendor/libpapi_sys/libpapi/src/high-level/papi_hl.c`) and proofs about
its region store, event resolver, report writer and lifecycle logic.

Modelling conventions:
* C `long_long` counter readings become `Int` (the claims are about exact
  accumulation identities, not overflow behaviour).
* The doubly-linked, newest-first lists of the C code (`regions_t` lists and
  `reads_t` lists) become Lean `List`s whose head is the newest node; the
  C insertion at the head is `List.cons`.
* The thread binary tree (`tsearch`/`tfind`) becomes a list of `threads_t`
  with unique keys; `tfind` is `List.find?` on the key.
* External collaborators (the low-level PAPI hardware layer, the filesystem)
  are passed in as explicit oracle data; memory allocation is assumed to
  succeed (the `PAPI_ENOMEM` paths are not modelled).
-/

namespace PapiHl

/-! ## PAPI return codes (papi.h) -/

def PAPI_OK : Int := 0
def PAPI_EINVAL : Int := -1
def PAPI_ENOMEM : Int := -2
def PAPI_ESYS : Int := -3
def PAPI_ENOTRUN : Int := -9
def PAPI_EISRUN : Int := -10
def PAPI_EMISC : Int := -14
def PAPI_ENOINIT : Int := -16

/-! ## Data model (global event storage, papi_hl.c lines 83-128) -/

/-- Model of `enum region_type` of the source. -/
inductive region_type where
  | REGION_BEGIN
  | REGION_READ
  | REGION_END
deriving Repr, DecidableEq

/-- Model of `value_t`: one slot of a region node.  The C `reads_t` doubly-linked list
(newest-first, inserted at the head) is modelled as a `List Int` whose head is
the newest read sample. -/
structure value_t where
  offset : Int
  total : Int
  read_values : List Int
deriving Repr, DecidableEq

/-- Model of `regions_t`: a region node.  The C flexible array `values[]` always has
`total_num_events + 2` entries with slots 0 (region-entry counter) and 1
(cycles) fixed ahead of the user-event slots; the model splits it as
`v0 :: v1 :: vs`. -/
structure regions_t where
  region : String
  v0 : value_t
  v1 : value_t
  vs : List value_t
deriving Repr, DecidableEq

/-- Model of `threads_t`: a node of the global thread tree. -/
structure threads_t where
  key : Nat
  value : List regions_t
deriving Repr, DecidableEq

/-- Snapshot of the counter values delivered by `_internal_hl_read_counters`
for one call: `_local_cycles` plus the per-event values of all components,
flattened in component order (exactly the order the C `cmp_iter` walks). -/
structure Snapshot where
  cycles : Int
  vals : List Int
deriving Repr, DecidableEq

/-! ## Components (papi_hl.c lines 45-63) -/

/-- One entry of the per-component parallel arrays `event_names` /
`event_codes` / `event_types`. -/
structure EventDef where
  name : String
  code : Int
  etype : Int
deriving Repr, DecidableEq

/-- Model of `components_t` (the validation `EventSet` handle is not modelled; the
source destroys it before any region runs). -/
structure components_t where
  component_id : Int
  events : List EventDef
deriving Repr, DecidableEq

/-- Flattened event-type list of all components, in the order the `cmp_iter`
loops of the source walk the slots. -/
def flatTypes (comps : List components_t) : List Int :=
  comps.flatMap (fun c => c.events.map EventDef.etype)

/-- Global `total_num_events` counter: kept equal to the number of events
stored over all components. -/
def total_num_events (comps : List components_t) : Nat :=
  (comps.map (fun c => c.events.length)).sum

/-! ## Region store operations (papi_hl.c lines 730-938) -/

/-- Model of `_internal_hl_add_values_to_region` (lines 752-801): fold the current
snapshot into one region node.  `etypes` is the flattened event-type list,
`s.vals` the flattened current counter values. -/
def _internal_hl_add_values_to_region (etypes : List Int) (s : Snapshot)
    (node : regions_t) : region_type → regions_t
  | .REGION_BEGIN =>
      { node with
        v0 := { node.v0 with offset := 1 },
        v1 := { node.v1 with offset := s.cycles },
        vs := List.zipWith (fun v x => { v with offset := x }) node.vs s.vals }
  | .REGION_READ =>
      { node with
        v1 := { node.v1 with
                  read_values := (s.cycles - node.v1.offset) :: node.v1.read_values },
        vs := List.zipWith
                (fun v tx =>
                  { v with
                    read_values :=
                      (if tx.1 = (1 : Int) then tx.2 else tx.2 - v.offset)
                        :: v.read_values })
                node.vs (etypes.zip s.vals) }
  | .REGION_END =>
      { node with
        v0 := { node.v0 with total := node.v0.total + node.v0.offset },
        v1 := { node.v1 with total := node.v1.total + (s.cycles - node.v1.offset) },
        vs := List.zipWith
                (fun v tx =>
                  { v with
                    total := v.total + (if tx.1 = (1 : Int) then tx.2 else tx.2 - v.offset) })
                node.vs (etypes.zip s.vals) }

/-- The zero-initialised slot of a fresh region node (lines 823-826 zero the
`total` and `read_values` of every slot; the C leaves `offset` uninitialised
but always writes it on the begin path before any use — modelled as 0). -/
def zeroValue : value_t := { offset := 0, total := 0, read_values := [] }

/-- Node construction part of `_internal_hl_insert_region_node`
(lines 804-826): a node named `region` with `numEvents + 2` zeroed slots. -/
def mkRegionNode (region : String) (numEvents : Nat) : regions_t :=
  { region := region, v0 := zeroValue, v1 := zeroValue,
    vs := List.replicate numEvents zeroValue }

/-- List insertion part of `_internal_hl_insert_region_node` (lines 828-837):
the new node becomes the head of the region list (newest-first). -/
def _internal_hl_insert_region_node (head : List regions_t) (region : String)
    (numEvents : Nat) : List regions_t :=
  mkRegionNode region numEvents :: head

/-- Model of `_internal_hl_find_region_node` (lines 841-852). -/
def _internal_hl_find_region_node (head : List regions_t) (region : String) :
    Option regions_t :=
  head.find? (fun r => r.region = region)

/-- Model of `_internal_hl_find_thread_node` (lines 865-875): `tfind` by thread id. -/
def _internal_hl_find_thread_node (tree : List threads_t) (tid : Nat) :
    Option threads_t :=
  tree.find? (fun t => t.key = tid)

/-- In-place mutation of the first region node with the given name, as the
C code does through the pointer returned by `_internal_hl_find_region_node`. -/
def updateFirstRegion (rs : List regions_t) (region : String)
    (f : regions_t → regions_t) : List regions_t :=
  match rs with
  | [] => []
  | r :: rest =>
      if r.region = region then f r :: rest
      else r :: updateFirstRegion rest region f

/-- In-place mutation of the region list of the thread node keyed `tid`
(thread keys are unique: `tsearch` only inserts missing keys). -/
def updateThreadValue (tree : List threads_t) (tid : Nat)
    (f : List regions_t → List regions_t) : List threads_t :=
  tree.map (fun t => if t.key = tid then { t with value := f t.value } else t)

/-! ## Global and thread-local lifecycle state (papi_hl.c lines 57-148) -/

/-- The global mutable variables of papi_hl.c.  `comps = none` models
`components == NULL` (freed or never built); `tree = none` models
`binary_tree == NULL`.  `total_num_events` is derived from `comps`
(the source keeps the counter in sync with the component arrays). -/
structure GlobalCtx where
  state : Bool
  hl_initiated : Bool
  hl_finalized : Bool
  events_determined : Bool
  output_generated : Bool
  requested_event_names : List String
  comps : Option (List components_t)
  num_of_cleaned_threads : Nat
  tree : Option (List threads_t)
  region_begin_cnt : Nat
  region_end_cnt : Nat
deriving Repr, DecidableEq

/-- The thread-local variables of one calling thread (`_local_state`,
`_local_components != NULL`, `_local_region_begin_cnt`,
`_local_region_end_cnt`). -/
structure LocalCtx where
  lstate : Bool
  lcomponents : Bool
  lbegin_cnt : Nat
  lend_cnt : Nat
deriving Repr, DecidableEq

/-- Model of `_internal_hl_store_counters` (lines 878-938), executed under
`HIGHLEVEL_LOCK`.  `etypes` is the flattened event-type list of the fixed
component set, `s` the snapshot just read for the calling thread `tid`.
The `tree = none` case would dereference NULL in C; it is unreachable in a
real run because the tree is allocated before the first store. -/
def _internal_hl_store_counters (etypes : List Int) (s : Snapshot) (tid : Nat)
    (region : String) (typ : region_type) (g : GlobalCtx) : Int × GlobalCtx :=
  match g.tree with
  | none => (PAPI_EMISC, g)
  | some tr =>
    match _internal_hl_find_thread_node tr tid with
    | none =>
      match typ with
      | .REGION_BEGIN =>
          let node := _internal_hl_add_values_to_region etypes s
                        (mkRegionNode region etypes.length) .REGION_BEGIN
          (PAPI_OK, { g with
                      tree := some ({ key := tid, value := [node] } :: tr),
                      region_begin_cnt := g.region_begin_cnt + 1 })
      | _ => (PAPI_EINVAL, g)
    | some t =>
      match _internal_hl_find_region_node t.value region with
      | none =>
        match typ with
        | .REGION_BEGIN =>
            let node := _internal_hl_add_values_to_region etypes s
                          (mkRegionNode region etypes.length) .REGION_BEGIN
            (PAPI_OK, { g with
                        tree := some (updateThreadValue tr tid (fun rs => node :: rs)),
                        region_begin_cnt := g.region_begin_cnt + 1 })
        | .REGION_READ =>
            (PAPI_OK, g)
        | .REGION_END =>
            (PAPI_EINVAL, g)
      | some _ =>
        let tr2 := updateThreadValue tr tid (fun rs =>
          updateFirstRegion rs region
            (fun n => _internal_hl_add_values_to_region etypes s n typ))
        match typ with
        | .REGION_BEGIN =>
            (PAPI_OK, { g with tree := some tr2,
                               region_begin_cnt := g.region_begin_cnt + 1 })
        | .REGION_READ =>
            (PAPI_OK, { g with tree := some tr2 })
        | .REGION_END =>
            (PAPI_OK, { g with tree := some tr2,
                               region_end_cnt := g.region_end_cnt + 1 })

/-! ## Cleanup (papi_hl.c lines 1359-1505) -/

/-- Model of `_internal_hl_clean_up_local_data` (lines 1359-1385): release the
thread-local event sets, bump the global cleaned-thread counter (only when
local components existed) and deactivate the thread-local state. -/
def _internal_hl_clean_up_local_data (g : GlobalCtx) (l : LocalCtx) :
    GlobalCtx × LocalCtx :=
  if l.lcomponents then
    ({ g with num_of_cleaned_threads := g.num_of_cleaned_threads + 1 },
     { l with lcomponents := false, lstate := false })
  else
    (g, { l with lstate := false })

/-- Model of `_internal_hl_clean_up_global_data` (lines 1387-1436): empty the thread
tree and drop the requested event names; components are deliberately not
freed here. -/
def _internal_hl_clean_up_global_data (g : GlobalCtx) : GlobalCtx :=
  { g with tree := g.tree.map (fun _ => ([] : List threads_t)),
           requested_event_names := [] }

/-- Model of `_internal_hl_check_for_clean_thread_states` (lines 1491-1505): scan the
global event-set map; `true` entries model event sets whose `state` has
`PAPI_RUNNING` set. -/
def _internal_hl_check_for_clean_thread_states : List Bool → Int
  | [] => PAPI_OK
  | running :: rest =>
      if running then PAPI_EISRUN
      else _internal_hl_check_for_clean_thread_states rest

/-- Model of `_internal_hl_clean_up_all` (lines 1438-1489).  `hwThreads` is the thread
count reported by `PAPI_list_threads`, `es` the running flags of the global
event-set map scanned by `_internal_hl_check_for_clean_thread_states`.
The returned `Bool` records whether `PAPI_shutdown` ran (global hardware
teardown, with the component arrays freed). -/
def _internal_hl_clean_up_all (deactivate : Bool) (hwThreads : Nat)
    (es : List Bool) (g : GlobalCtx) (l : LocalCtx) :
    (GlobalCtx × LocalCtx) × Bool :=
  let g1 := { g with output_generated := true }
  let gl2 := if l.lstate then _internal_hl_clean_up_local_data g1 l else (g1, l)
  if gl2.1.state then
    let g3 := _internal_hl_clean_up_global_data gl2.1
    if _internal_hl_check_for_clean_thread_states es = PAPI_OK ∧
        hwThreads = g3.num_of_cleaned_threads then
      ((if deactivate then { g3 with comps := none, state := false }
        else { g3 with comps := none }, gl2.2), true)
    else
      ((if deactivate then { g3 with state := false } else g3, gl2.2), false)
  else
    (gl2, false)

/-- Model of `_internal_hl_read_and_store_counters` (lines 962-980).  `readRet` is the
result of `_internal_hl_read_counters` (the hardware read); `s` is the
snapshot it delivered on success.  Any read or store failure escalates to
`_internal_hl_clean_up_all true`. -/
def _internal_hl_read_and_store_counters (etypes : List Int) (readRet : Int)
    (s : Snapshot) (hwThreads : Nat) (es : List Bool) (tid : Nat)
    (region : String) (typ : region_type) (g : GlobalCtx) (l : LocalCtx) :
    Int × GlobalCtx × LocalCtx :=
  if readRet ≠ PAPI_OK then
    let r := _internal_hl_clean_up_all true hwThreads es g l
    (readRet, r.1.1, r.1.2)
  else
    let sc := _internal_hl_store_counters etypes s tid region typ g
    if sc.1 = PAPI_OK then (PAPI_OK, sc.2, l)
    else
      let r := _internal_hl_clean_up_all true hwThreads es sc.2 l
      (sc.1, r.1.1, r.1.2)

/-! ## Public region calls (papi_hl.c lines 1937-2038) -/

/-- Model of `PAPI_hl_read` (lines 1937-1963). -/
def PAPI_hl_read (etypes : List Int) (readRet : Int) (s : Snapshot)
    (hwThreads : Nat) (es : List Bool) (tid : Nat) (region : String)
    (g : GlobalCtx) (l : LocalCtx) : Int × GlobalCtx × LocalCtx :=
  if g.state = false then
    let gl := if l.lstate then _internal_hl_clean_up_local_data g l else (g, l)
    (PAPI_EMISC, gl.1, gl.2)
  else if l.lbegin_cnt = 0 then
    (PAPI_EMISC, g, l)
  else if l.lcomponents = false then
    (PAPI_ENOTRUN, g, l)
  else
    _internal_hl_read_and_store_counters etypes readRet s hwThreads es tid
      region .REGION_READ g l

/-- Model of `PAPI_hl_region_end` (lines 2011-2038). -/
def PAPI_hl_region_end (etypes : List Int) (readRet : Int) (s : Snapshot)
    (hwThreads : Nat) (es : List Bool) (tid : Nat) (region : String)
    (g : GlobalCtx) (l : LocalCtx) : Int × GlobalCtx × LocalCtx :=
  if g.state = false then
    let gl := if l.lstate then _internal_hl_clean_up_local_data g l else (g, l)
    (PAPI_EMISC, gl.1, gl.2)
  else if l.lbegin_cnt = 0 then
    (PAPI_EMISC, g, l)
  else if l.lcomponents = false then
    (PAPI_ENOTRUN, g, l)
  else
    let r := _internal_hl_read_and_store_counters etypes readRet s hwThreads es
               tid region .REGION_END g l
    if r.1 = PAPI_OK then
      (PAPI_OK, r.2.1, { r.2.2 with lend_cnt := r.2.2.lend_cnt + 1 })
    else r

/-! ## Event resolver (papi_hl.c lines 320-663) -/

/-- Model of `_internal_hl_remove_spaces` (lines 320-329): drop every `' '`. -/
def _internal_hl_remove_spaces (s : String) : String :=
  String.mk (s.toList.filter (fun c => c ≠ ' '))

/-- Model of `_internal_hl_read_user_events` (lines 361-415).  The C counts separator
characters to size the array (`num_of_req_events` starts at 1), then tokenises
with `strtok` (which skips empty tokens) and strips spaces from each token.
The result is the stored name list together with the final
`num_of_requested_events`. -/
def _internal_hl_read_user_events (user_events : String) :
    Except Int (List String × Nat) :=
  let num_of_req_events := 1 + (user_events.toList.count ',')
  if user_events.length > 0 then
    let tokens := (user_events.splitOn ",").filter (fun t => t ≠ "")
    if tokens.length > num_of_req_events then
      Except.error PAPI_EINVAL
    else
      Except.ok (tokens.map _internal_hl_remove_spaces, num_of_req_events)
  else
    -- empty string: the parsing block is skipped entirely, yet
    -- `num_of_requested_events` is still set to the initial 1 and the
    -- `num_of_requested_events == 0` check cannot fire
    if num_of_req_events = 0 then Except.error PAPI_EINVAL
    else Except.ok ([], num_of_req_events)

/-- The event-type detection of `_internal_hl_create_components`
(lines 530-547): given the `event_type` value left over from the previous
loop iteration and one requested name, return the type used for this event
and the (possibly suffix-stripped) name.  `strchr` finds the first `'='`;
only the exact suffixes `"=instant"` and `"=delta"` are removed. -/
def stripTypeSuffix (prev_type : Int) (name : String) : Int × String :=
  match name.toList.findIdx? (fun c => c = '=') with
  | none => (prev_type, name)
  | some i =>
      let suffix := String.mk (name.toList.drop i)
      let t : Int := if suffix = "=instant" then 1 else 0
      if suffix = "=instant" ∨ suffix = "=delta" then
        (t, String.mk (name.toList.take i))
      else (t, name)

/-- The `(event_type, stored name)` sequence the loop of
`_internal_hl_create_components` computes for a requested-name list, with the
`event_type` local variable threaded through iterations exactly as in the
source (it is declared outside the loop at line 522). -/
def assignTypes (prev_type : Int) : List String → List (Int × String)
  | [] => []
  | n :: ns =>
      let tn := stripTypeSuffix prev_type n
      tn :: assignTypes tn.1 ns

/-- Oracle for the hardware-layer services used while building components:
`counterOk` is `_internal_hl_checkCounter == PAPI_OK`, `code` is
`PAPI_event_name_to_code`, `compIndex` is `PAPI_COMPONENT_INDEX`, and
`addOk names code` tells whether `PAPI_add_event` accepts `code` on a
validation event set already holding `names`. -/
structure HwOracle where
  counterOk : String → Bool
  code : String → Int
  compIndex : Int → Int
  addOk : List String → Int → Bool

/-- Model of `_internal_hl_new_component` + the component lookup of lines 560-585:
find the component with `cid` or append a fresh one (appending matches the
growable array), then `_internal_hl_add_event_to_component` (lines 470-514):
the event is stored only if `PAPI_add_event` accepts it; a fresh component
stays registered even when its first event is rejected. -/
def addEventToComponents (hw : HwOracle) (comps : List components_t)
    (cid : Int) (ev : EventDef) : List components_t :=
  match comps with
  | [] =>
      if hw.addOk [] ev.code then [{ component_id := cid, events := [ev] }]
      else [{ component_id := cid, events := [] }]
  | c :: rest =>
      if c.component_id = cid then
        if hw.addOk (c.events.map EventDef.name) ev.code then
          { c with events := c.events ++ [ev] } :: rest
        else c :: rest
      else c :: addEventToComponents hw rest cid ev

/-- The main loop of `_internal_hl_create_components` (lines 529-592),
returning the suffix-stripped requested names (the source strips them in
place in `requested_event_names`) and the built component list. -/
def create_components_loop (hw : HwOracle) (prev_type : Int)
    (comps : List components_t) : List String → List String × List components_t
  | [] => ([], comps)
  | n :: ns =>
      let tn := stripTypeSuffix prev_type n
      let comps2 :=
        if hw.counterOk tn.2 then
          let code := hw.code tn.2
          addEventToComponents hw comps (hw.compIndex code)
            { name := tn.2, code := code, etype := tn.1 }
        else comps
      let rest := create_components_loop hw tn.1 comps2 ns
      (tn.2 :: rest.1, rest.2)

/-- Model of `_internal_hl_create_components` (lines 516-618): run the loop from
`event_type = 0` and fail with `PAPI_EINVAL` when no component was created. -/
def _internal_hl_create_components (hw : HwOracle) (names : List String) :
    Int × List String × List components_t :=
  let r := create_components_loop hw 0 [] names
  if r.2.length = 0 then (PAPI_EINVAL, r.1, r.2) else (PAPI_OK, r.1, r.2)

/-- The hard-coded default event set (lines 335-341). -/
def default_events : List String :=
  ["perf::TASK-CLOCK", "PAPI_TOT_INS", "PAPI_TOT_CYC", "PAPI_FP_INS", "PAPI_FP_OPS"]

/-- Model of `_internal_hl_determine_default_events` (lines 331-359): keep the default
events supported on the current machine. -/
def _internal_hl_determine_default_events (hw : HwOracle) : List String :=
  default_events.filter hw.counterOk

/-- Model of `_internal_hl_read_events` (lines 620-663).  `events` is the explicit
argument, `env` the value of `PAPI_EVENTS`.  A failing user-event parse falls
back to the default set; a failing component build retries once with the
default set.  On success the returned names are the (stripped) stored
`requested_event_names`. -/
def _internal_hl_read_events (hw : HwOracle) (events : Option String)
    (env : Option String) : Except Int (List String × List components_t) :=
  let names0 :=
    match events with
    | some s =>
        match _internal_hl_read_user_events s with
        | Except.ok r => r.1
        | Except.error _ => _internal_hl_determine_default_events hw
    | none =>
        match env with
        | some s =>
            match _internal_hl_read_user_events s with
            | Except.ok r => r.1
            | Except.error _ => _internal_hl_determine_default_events hw
        | none => _internal_hl_determine_default_events hw
  let r := _internal_hl_create_components hw names0
  if r.1 = PAPI_OK then Except.ok (r.2.1, r.2.2)
  else
    let dnames := _internal_hl_determine_default_events hw
    let r2 := _internal_hl_create_components hw dnames
    if r2.1 = PAPI_OK then Except.ok (r2.2.1, r2.2.2)
    else Except.error r2.1

/-- Model of `_internal_PAPI_hl_set_events` (lines 1710-1748), with the double-checked
`events_determined` gate collapsed to one check in this sequential model.
On success `_internal_hl_create_global_binary_tree` (lines 982-990) allocates
the empty thread tree. -/
def _internal_PAPI_hl_set_events (hw : HwOracle) (events : Option String)
    (env : Option String) (g : GlobalCtx) : Int × GlobalCtx :=
  if g.state then
    if g.hl_initiated ∧ g.events_determined = false then
      match _internal_hl_read_events hw events env with
      | Except.ok r =>
          (PAPI_OK, { g with requested_event_names := r.1,
                             comps := some r.2,
                             events_determined := true,
                             tree := some [] })
      | Except.error e =>
          (e, _internal_hl_clean_up_global_data { g with state := false })
    else if g.state = false then (PAPI_EMISC, g)
    else (PAPI_OK, g)
  else (PAPI_EMISC, g)

/-! ## Report writer (papi_hl.c lines 1086-1357, 1783-1791) -/

/-- Emission order of the doubly-linked lists: the source first walks `next`
pointers to the last node, then emits following `prev` pointers until NULL
(`_internal_hl_json_regions` lines 1168-1194, and the read-sample loop of
`_internal_hl_json_region_events` lines 1120-1148). -/
def emitTailFirst : List α → List α
  | [] => []
  | x :: xs => emitTailFirst xs ++ [x]

/-- One emitted event field: a bare total, or a total followed by the
labelled `read_N` samples. -/
inductive EventField where
  | scalar (total : Int)
  | withReads (total : Int) (reads : List (Nat × Int))
deriving Repr, DecidableEq

/-- The flattened `all_event_names` array of
`_internal_hl_json_region_events` (lines 1102-1112). -/
def allEventNames (comps : List components_t) : List String :=
  "region_count" :: "cycles" :: comps.flatMap (fun c => c.events.map EventDef.name)

/-- All slots of a region node in array order. -/
def allSlots (node : regions_t) : List value_t :=
  node.v0 :: node.v1 :: node.vs

/-- Model of `_internal_hl_json_region_events` (lines 1096-1161): per slot, emit the
total and, when read samples exist, the samples in tail-first order labelled
`read_1`, `read_2`, ... in emission order (`read_cnt` starts at 1). -/
def _internal_hl_json_region_events (comps : List components_t)
    (node : regions_t) : List (String × EventField) :=
  ((allEventNames comps).zip (allSlots node)).map (fun nv =>
    if nv.2.read_values = [] then (nv.1, EventField.scalar nv.2.total)
    else (nv.1, EventField.withReads nv.2.total
                  (List.enumFrom 1 (emitTailFirst nv.2.read_values))))

/-- Model of `_internal_hl_json_regions` (lines 1163-1195): regions of one thread are
emitted tail-first. -/
def _internal_hl_json_regions (comps : List components_t)
    (thread_node : threads_t) : List (String × List (String × EventField)) :=
  (emitTailFirst thread_node.value).map (fun r =>
    (r.region, _internal_hl_json_region_events comps r))

/-- Model of `_internal_hl_write_output` (lines 1241-1357).  Returns the new state,
whether a report file was written, and whether the mismatched-region warning
fired.  `fsOk` models the directory/file-creation and thread-listing calls
succeeding. -/
def _internal_hl_write_output (fsOk : Bool) (g : GlobalCtx) :
    GlobalCtx × Bool × Bool :=
  if g.output_generated then (g, false, false)
  else
    match g.tree with
    | none => (g, false, false)
    | some _ =>
        if g.region_begin_cnt = g.region_end_cnt then
          if fsOk then ({ g with output_generated := true }, true, false)
          else (g, false, false)
        else
          ({ g with output_generated := true }, false, true)

/-- Model of `_internal_PAPI_hl_print_output` (lines 1783-1791). -/
def _internal_PAPI_hl_print_output (fsOk : Bool) (g : GlobalCtx) :
    GlobalCtx × Bool × Bool :=
  if g.state ∧ g.hl_initiated ∧ g.output_generated = false then
    _internal_hl_write_output fsOk g
  else (g, false, false)

/-! ## Call scenarios on one region node -/

/-- One matched begin/end pair folded into a region node: the begin snapshot
`p.1` is stored as offsets, the end snapshot `p.2` is folded into the totals. -/
def runPair (etypes : List Int) (p : Snapshot × Snapshot) (node : regions_t) :
    regions_t :=
  _internal_hl_add_values_to_region etypes p.2
    (_internal_hl_add_values_to_region etypes p.1 node .REGION_BEGIN) .REGION_END

/-- A sequence of matched begin/end pairs on one region node of one thread. -/
def runPairs (etypes : List Int) (ps : List (Snapshot × Snapshot))
    (node : regions_t) : regions_t :=
  ps.foldl (fun n p => runPair etypes p n) node

/-- A sequence of read calls on one region node of one thread. -/
def runReads (etypes : List Int) (ss : List Snapshot) (node : regions_t) :
    regions_t :=
  ss.foldl
    (fun n s => _internal_hl_add_values_to_region etypes s n .REGION_READ) node

/-! ## Concrete fixtures used by witnesses and counterexamples -/

/-- Hardware oracle on which every event exists and every combination is
accepted by the validation event set. -/
def hwAccepting : HwOracle :=
  { counterOk := fun _ => true, code := fun _ => 0, compIndex := fun _ => 0,
    addOk := fun _ _ => true }

def sB1 : Snapshot := { cycles := 10, vals := [100, 5] }
def sE1 : Snapshot := { cycles := 17, vals := [103, 8] }
def sB2 : Snapshot := { cycles := 20, vals := [110, 2] }
def sE2 : Snapshot := { cycles := 26, vals := [115, 9] }

/-- Two matched begin/end pairs over one delta event (slot 0) and one instant
event (slot 1). -/
def psDemo : List (Snapshot × Snapshot) := [(sB1, sE1), (sB2, sE2)]

def compsDemo : List components_t :=
  [{ component_id := 0, events := [{ name := "EVX", code := 42, etype := 0 }] }]

/-- A store holding one thread (id 7) with one region node "A". -/
def trDemo : List threads_t := [{ key := 7, value := [mkRegionNode "A" 1] }]

def gDemo : GlobalCtx :=
  { state := true, hl_initiated := true, hl_finalized := false,
    events_determined := true, output_generated := false,
    requested_event_names := ["EVX"], comps := some compsDemo,
    num_of_cleaned_threads := 0, tree := some trDemo,
    region_begin_cnt := 1, region_end_cnt := 0 }

def lDemo : LocalCtx :=
  { lstate := true, lcomponents := true, lbegin_cnt := 1, lend_cnt := 0 }

/-- Thread-local state of a thread that has never made a successful
`regionBegin` (`_local_region_begin_cnt == 0`, no local event sets). -/
def lFresh : LocalCtx :=
  { lstate := true, lcomponents := false, lbegin_cnt := 0, lend_cnt := 0 }

def sDemo : Snapshot := { cycles := 5, vals := [9] }

def sR1 : Snapshot := { cycles := 12, vals := [101, 6] }
def sR2 : Snapshot := { cycles := 15, vals := [102, 4] }

/-- Two read snapshots taken between a begin and its end. -/
def ssDemo : List Snapshot := [sR1, sR2]

/-- The region node right after a begin call with snapshot `sB1`. -/
def beginNodeDemo : regions_t :=
  _internal_hl_add_values_to_region [0, 1] sB1 (mkRegionNode "A" 2) .REGION_BEGIN

/-- A thread whose region list received "A" first and "B" second (the stored
list is newest-first: `["B", "A"]`). -/
def twoRegionThread : threads_t :=
  { key := 7,
    value := _internal_hl_insert_region_node
               (_internal_hl_insert_region_node [] "A" 0) "B" 0 }

/-- Default elements for positional access in frame statements. -/
def dThread : threads_t := { key := 0, value := [] }

def dRegion : regions_t := mkRegionNode "" 0

/-- The thread tree after a begin call that found an existing region node:
only that node is updated in place. -/
def beginUpdate (etypes : List Int) (s : Snapshot) (tid : Nat)
    (region : String) (tr : List threads_t) : List threads_t :=
  updateThreadValue tr tid (fun rs =>
    updateFirstRegion rs region (fun n =>
      _internal_hl_add_values_to_region etypes s n .REGION_BEGIN))

/-! ## Helper lemmas -/

theorem getD_of_lt (l : List α) (k : Nat) (d : α) (h : k < l.length) :
    l.getD k d = l[k] := by
  simp [List.getD_eq_getElem?_getD, List.getElem?_eq_getElem h]

theorem getD_replicate_self (n k : Nat) (a : α) :
    (List.replicate n a).getD k a = a := by
  induction n generalizing k with
  | zero => simp
  | succ n ih => cases k <;> simp [List.replicate_succ, ih]

theorem emitTailFirst_eq_reverse (l : List α) : emitTailFirst l = l.reverse := by
  induction l with
  | nil => rfl
  | cons x xs ih => simp [emitTailFirst, ih]

theorem mkRegionNode_vs_length (region : String) (n : Nat) :
    (mkRegionNode region n).vs.length = n := by
  simp [mkRegionNode]

theorem runPair_region (etypes : List Int) (p : Snapshot × Snapshot)
    (node : regions_t) : (runPair etypes p node).region = node.region := rfl

theorem runPair_v0 (etypes : List Int) (p : Snapshot × Snapshot)
    (node : regions_t) :
    (runPair etypes p node).v0 =
      { offset := 1, total := node.v0.total + 1,
        read_values := node.v0.read_values } := rfl

theorem runPair_v1 (etypes : List Int) (p : Snapshot × Snapshot)
    (node : regions_t) :
    (runPair etypes p node).v1 =
      { offset := p.1.cycles,
        total := node.v1.total + (p.2.cycles - p.1.cycles),
        read_values := node.v1.read_values } := rfl

theorem runPair_vs_length (etypes : List Int) (p : Snapshot × Snapshot)
    (node : regions_t) (hn : node.vs.length = etypes.length)
    (h1 : p.1.vals.length = etypes.length)
    (h2 : p.2.vals.length = etypes.length) :
    (runPair etypes p node).vs.length = etypes.length := by
  simp [runPair, _internal_hl_add_values_to_region, hn, h1, h2]

theorem runPair_vs_getD (etypes : List Int) (p : Snapshot × Snapshot)
    (node : regions_t) (k : Nat) (hn : node.vs.length = etypes.length)
    (h1 : p.1.vals.length = etypes.length)
    (h2 : p.2.vals.length = etypes.length) (hk : k < etypes.length) :
    (runPair etypes p node).vs.getD k zeroValue =
      { offset := p.1.vals.getD k 0,
        total := (node.vs.getD k zeroValue).total +
          (if etypes.getD k 0 = 1 then p.2.vals.getD k 0
           else p.2.vals.getD k 0 - p.1.vals.getD k 0),
        read_values := (node.vs.getD k zeroValue).read_values } := by
  have hkn : k < node.vs.length := by omega
  have hk1 : k < p.1.vals.length := by omega
  have hk2 : k < p.2.vals.length := by omega
  have hb : k < (runPair etypes p node).vs.length := by
    rw [runPair_vs_length etypes p node hn h1 h2]; exact hk
  rw [getD_of_lt _ _ _ hb, getD_of_lt _ _ _ hkn, getD_of_lt _ _ _ hk1,
      getD_of_lt _ _ _ hk2, getD_of_lt _ _ _ hk]
  simp [runPair, _internal_hl_add_values_to_region]

theorem runPairs_cons (etypes : List Int) (p : Snapshot × Snapshot)
    (ps : List (Snapshot × Snapshot)) (node : regions_t) :
    runPairs etypes (p :: ps) node = runPairs etypes ps (runPair etypes p node) := rfl

theorem runPairs_v0_total (etypes : List Int) (ps : List (Snapshot × Snapshot))
    (node : regions_t) :
    (runPairs etypes ps node).v0.total = node.v0.total + ps.length := by
  induction ps generalizing node with
  | nil => simp [runPairs]
  | cons p ps ih =>
      rw [runPairs_cons, ih, runPair_v0]
      simp [List.length_cons]
      ring

theorem runPairs_v1_total (etypes : List Int) (ps : List (Snapshot × Snapshot))
    (node : regions_t) :
    (runPairs etypes ps node).v1.total =
      node.v1.total + (ps.map (fun p => p.2.cycles - p.1.cycles)).sum := by
  induction ps generalizing node with
  | nil => simp [runPairs]
  | cons p ps ih =>
      rw [runPairs_cons, ih, runPair_v1]
      simp
      ring

theorem runPairs_vs_total (etypes : List Int) (ps : List (Snapshot × Snapshot))
    (node : regions_t) (k : Nat) (hn : node.vs.length = etypes.length)
    (hps : ∀ p ∈ ps, p.1.vals.length = etypes.length ∧
                     p.2.vals.length = etypes.length)
    (hk : k < etypes.length) :
    ((runPairs etypes ps node).vs.getD k zeroValue).total =
      (node.vs.getD k zeroValue).total +
        (ps.map (fun p =>
          if etypes.getD k 0 = 1 then p.2.vals.getD k 0
          else p.2.vals.getD k 0 - p.1.vals.getD k 0)).sum := by
  induction ps generalizing node with
  | nil => simp [runPairs]
  | cons p ps ih =>
      have hp := hps p (List.mem_cons_self p ps)
      rw [runPairs_cons,
          ih (runPair etypes p node)
             (runPair_vs_length etypes p node hn hp.1 hp.2)
             (fun q hq => hps q (List.mem_cons_of_mem p hq)),
          runPair_vs_getD etypes p node k hn hp.1 hp.2 hk]
      simp
      ring

theorem addBegin_v0 (etypes : List Int) (s : Snapshot) (node : regions_t) :
    (_internal_hl_add_values_to_region etypes s node .REGION_BEGIN).v0 =
      { offset := 1, total := node.v0.total,
        read_values := node.v0.read_values } := rfl

theorem addBegin_v1 (etypes : List Int) (s : Snapshot) (node : regions_t) :
    (_internal_hl_add_values_to_region etypes s node .REGION_BEGIN).v1 =
      { offset := s.cycles, total := node.v1.total,
        read_values := node.v1.read_values } := rfl

theorem addBegin_region (etypes : List Int) (s : Snapshot) (node : regions_t) :
    (_internal_hl_add_values_to_region etypes s node .REGION_BEGIN).region =
      node.region := rfl

theorem addBegin_vs_length (etypes : List Int) (s : Snapshot) (node : regions_t) :
    (_internal_hl_add_values_to_region etypes s node .REGION_BEGIN).vs.length =
      min node.vs.length s.vals.length := by
  simp [_internal_hl_add_values_to_region]

theorem addBegin_vs_getD (etypes : List Int) (s : Snapshot) (node : regions_t)
    (k : Nat) (hkn : k < node.vs.length) (hks : k < s.vals.length) :
    (_internal_hl_add_values_to_region etypes s node .REGION_BEGIN).vs.getD k
        zeroValue =
      { offset := s.vals.getD k 0,
        total := (node.vs.getD k zeroValue).total,
        read_values := (node.vs.getD k zeroValue).read_values } := by
  have hb : k < (_internal_hl_add_values_to_region etypes s node
      .REGION_BEGIN).vs.length := by
    rw [addBegin_vs_length]; omega
  rw [getD_of_lt _ _ _ hb, getD_of_lt _ _ _ hkn, getD_of_lt _ _ _ hks]
  simp [_internal_hl_add_values_to_region]

theorem addRead_v0 (etypes : List Int) (s : Snapshot) (node : regions_t) :
    (_internal_hl_add_values_to_region etypes s node .REGION_READ).v0 =
      node.v0 := rfl

theorem addRead_v1 (etypes : List Int) (s : Snapshot) (node : regions_t) :
    (_internal_hl_add_values_to_region etypes s node .REGION_READ).v1 =
      { offset := node.v1.offset, total := node.v1.total,
        read_values := (s.cycles - node.v1.offset) :: node.v1.read_values } := rfl

theorem addRead_vs_length (etypes : List Int) (s : Snapshot) (node : regions_t)
    (hn : node.vs.length = etypes.length)
    (hs : s.vals.length = etypes.length) :
    (_internal_hl_add_values_to_region etypes s node .REGION_READ).vs.length =
      etypes.length := by
  simp [_internal_hl_add_values_to_region, hn, hs]

theorem addRead_vs_getD (etypes : List Int) (s : Snapshot) (node : regions_t)
    (k : Nat) (hn : node.vs.length = etypes.length)
    (hs : s.vals.length = etypes.length) (hk : k < etypes.length) :
    (_internal_hl_add_values_to_region etypes s node .REGION_READ).vs.getD k
        zeroValue =
      { offset := (node.vs.getD k zeroValue).offset,
        total := (node.vs.getD k zeroValue).total,
        read_values :=
          (if etypes.getD k 0 = 1 then s.vals.getD k 0
           else s.vals.getD k 0 - (node.vs.getD k zeroValue).offset)
            :: (node.vs.getD k zeroValue).read_values } := by
  have hkn : k < node.vs.length := by omega
  have hks : k < s.vals.length := by omega
  have hb : k < (_internal_hl_add_values_to_region etypes s node
      .REGION_READ).vs.length := by
    rw [addRead_vs_length etypes s node hn hs]; exact hk
  rw [getD_of_lt _ _ _ hb, getD_of_lt _ _ _ hkn, getD_of_lt _ _ _ hks,
      getD_of_lt _ _ _ hk]
  simp [_internal_hl_add_values_to_region]

theorem runReads_cons (etypes : List Int) (s : Snapshot) (ss : List Snapshot)
    (node : regions_t) :
    runReads etypes (s :: ss) node =
      runReads etypes ss
        (_internal_hl_add_values_to_region etypes s node .REGION_READ) := rfl

theorem runReads_v0 (etypes : List Int) (ss : List Snapshot) (node : regions_t) :
    (runReads etypes ss node).v0 = node.v0 := by
  induction ss generalizing node with
  | nil => rfl
  | cons s ss ih => rw [runReads_cons, ih, addRead_v0]

theorem runReads_v1 (etypes : List Int) (ss : List Snapshot) (node : regions_t) :
    (runReads etypes ss node).v1 =
      { offset := node.v1.offset, total := node.v1.total,
        read_values :=
          (ss.map (fun s => s.cycles - node.v1.offset)).reverse ++
            node.v1.read_values } := by
  induction ss generalizing node with
  | nil => simp [runReads]
  | cons s ss ih => rw [runReads_cons, ih, addRead_v1]; simp

theorem runReads_vs_length (etypes : List Int) (ss : List Snapshot)
    (node : regions_t) (hn : node.vs.length = etypes.length)
    (hss : ∀ s ∈ ss, s.vals.length = etypes.length) :
    (runReads etypes ss node).vs.length = etypes.length := by
  induction ss generalizing node with
  | nil => exact hn
  | cons s ss ih =>
      rw [runReads_cons]
      exact ih _ (addRead_vs_length etypes s node hn
                    (hss s (List.mem_cons_self s ss)))
        (fun q hq => hss q (List.mem_cons_of_mem s hq))

theorem runReads_vs_getD (etypes : List Int) (ss : List Snapshot)
    (node : regions_t) (k : Nat) (hn : node.vs.length = etypes.length)
    (hss : ∀ s ∈ ss, s.vals.length = etypes.length) (hk : k < etypes.length) :
    (runReads etypes ss node).vs.getD k zeroValue =
      { offset := (node.vs.getD k zeroValue).offset,
        total := (node.vs.getD k zeroValue).total,
        read_values :=
          (ss.map (fun s =>
            if etypes.getD k 0 = 1 then s.vals.getD k 0
            else s.vals.getD k 0 - (node.vs.getD k zeroValue).offset)).reverse
            ++ (node.vs.getD k zeroValue).read_values } := by
  induction ss generalizing node with
  | nil => simp [runReads]
  | cons s ss ih =>
      rw [runReads_cons,
          ih _ (addRead_vs_length etypes s node hn
                  (hss s (List.mem_cons_self s ss)))
            (fun q hq => hss q (List.mem_cons_of_mem s hq)),
          addRead_vs_getD etypes s node k hn (hss s (List.mem_cons_self s ss)) hk]
      simp

/-! ## Claim theorems -/

/-- C1: after `N` matched begin/end pairs on one region node of one thread,
the region-entry slot total equals `N`, the cycles slot and every delta-type
event slot accumulate the sum of (end reading − begin reading) over the
pairs, and every instant-type event slot accumulates the additive sum of the
raw end readings (not last-value-wins). -/
theorem claim_C1_matched_pairs_totals (etypes : List Int) (region : String)
    (ps : List (Snapshot × Snapshot))
    (hps : ∀ p ∈ ps, p.1.vals.length = etypes.length ∧
                     p.2.vals.length = etypes.length) :
    (runPairs etypes ps (mkRegionNode region etypes.length)).v0.total =
        ps.length ∧
    (runPairs etypes ps (mkRegionNode region etypes.length)).v1.total =
        (ps.map (fun p => p.2.cycles - p.1.cycles)).sum ∧
    ∀ k, k < etypes.length →
      (etypes.getD k 0 ≠ 1 →
        ((runPairs etypes ps (mkRegionNode region etypes.length)).vs.getD k
            zeroValue).total =
          (ps.map (fun p => p.2.vals.getD k 0 - p.1.vals.getD k 0)).sum) ∧
      (etypes.getD k 0 = 1 →
        ((runPairs etypes ps (mkRegionNode region etypes.length)).vs.getD k
            zeroValue).total =
          (ps.map (fun p => p.2.vals.getD k 0)).sum) := by
  refine ⟨?_, ?_, ?_⟩
  · rw [runPairs_v0_total]
    simp [mkRegionNode, zeroValue]
  · rw [runPairs_v1_total]
    simp [mkRegionNode, zeroValue]
  · intro k hk
    have h := runPairs_vs_total etypes ps (mkRegionNode region etypes.length) k
                (mkRegionNode_vs_length region etypes.length) hps hk
    have hz : ((mkRegionNode region etypes.length).vs.getD k zeroValue).total
        = 0 := by
      simp [mkRegionNode, getD_replicate_self, zeroValue]
    constructor
    · intro ht
      rw [h, hz]
      simp only [List.getD_eq_getElem?_getD] at ht ⊢
      simp [ht]
    · intro ht
      rw [h, hz]
      simp only [List.getD_eq_getElem?_getD] at ht ⊢
      simp [ht]

/-- Witness for C1 at two concrete begin/end pairs over one delta and one
instant event. -/
theorem claim_C1_witness :
    (runPairs [0, 1] psDemo (mkRegionNode "A" 2)).v0.total = 2 ∧
    (runPairs [0, 1] psDemo (mkRegionNode "A" 2)).v1.total = 13 ∧
    ((runPairs [0, 1] psDemo (mkRegionNode "A" 2)).vs.getD 0 zeroValue).total
      = 8 ∧
    ((runPairs [0, 1] psDemo (mkRegionNode "A" 2)).vs.getD 1 zeroValue).total
      = 17 := by
  have h := claim_C1_matched_pairs_totals [0, 1] "A" psDemo (by decide)
  exact ⟨h.1.trans (by decide), h.2.1.trans (by decide),
         ((h.2.2 0 (by decide)).1 (by decide)).trans (by decide),
         ((h.2.2 1 (by decide)).2 (by decide)).trans (by decide)⟩

/-- C2: each `regionRead` on an existing region node appends exactly one read
sample per tracked-event slot — the cycles slot gets (current cycles − stored
offset), a delta slot gets (current value − stored offset), an instant slot
gets the raw value, and no sample is appended to the region-entry slot — and
successive reads appear in call order when a sample list is emitted
oldest-to-newest (tail first, as the report writer does). -/
theorem claim_C2_read_samples (etypes : List Int) (s s0 : Snapshot)
    (ss : List Snapshot) (region : String) (node : regions_t)
    (hn : node.vs.length = etypes.length)
    (hs : s.vals.length = etypes.length)
    (hs0 : s0.vals.length = etypes.length)
    (hss : ∀ q ∈ ss, q.vals.length = etypes.length) :
    ((_internal_hl_add_values_to_region etypes s node .REGION_READ).v0 =
        node.v0) ∧
    ((_internal_hl_add_values_to_region etypes s node .REGION_READ).v1.read_values
        = (s.cycles - node.v1.offset) :: node.v1.read_values) ∧
    (∀ k, k < etypes.length →
      ((_internal_hl_add_values_to_region etypes s node
            .REGION_READ).vs.getD k zeroValue).read_values =
        (if etypes.getD k 0 = 1 then s.vals.getD k 0
         else s.vals.getD k 0 - (node.vs.getD k zeroValue).offset)
          :: (node.vs.getD k zeroValue).read_values) ∧
    (emitTailFirst
        ((runReads etypes ss
            (_internal_hl_add_values_to_region etypes s0
              (mkRegionNode region etypes.length) .REGION_BEGIN)).v1.read_values)
        = ss.map (fun q => q.cycles - s0.cycles)) ∧
    ((runReads etypes ss
        (_internal_hl_add_values_to_region etypes s0
          (mkRegionNode region etypes.length) .REGION_BEGIN)).v0.read_values
        = []) ∧
    (∀ k, k < etypes.length →
      emitTailFirst
          (((runReads etypes ss
              (_internal_hl_add_values_to_region etypes s0
                (mkRegionNode region etypes.length) .REGION_BEGIN)).vs.getD k
              zeroValue).read_values)
        = ss.map (fun q =>
            if etypes.getD k 0 = 1 then q.vals.getD k 0
            else q.vals.getD k 0 - s0.vals.getD k 0)) := by
  have hblen : (_internal_hl_add_values_to_region etypes s0
      (mkRegionNode region etypes.length) .REGION_BEGIN).vs.length
      = etypes.length := by
    rw [addBegin_vs_length, mkRegionNode_vs_length, hs0]
    simp
  refine ⟨rfl, by rw [addRead_v1], ?_, ?_, ?_, ?_⟩
  · intro k hk
    rw [addRead_vs_getD etypes s node k hn hs hk]
  · have hbo : (_internal_hl_add_values_to_region etypes s0
        (mkRegionNode region etypes.length) .REGION_BEGIN).v1 =
        { offset := s0.cycles, total := 0, read_values := [] } := rfl
    rw [runReads_v1, hbo, emitTailFirst_eq_reverse]
    simp
  · rw [runReads_v0]
    rfl
  · intro k hk
    have hkm : k < (mkRegionNode region etypes.length).vs.length := by
      rw [mkRegionNode_vs_length]; exact hk
    have hks0 : k < s0.vals.length := by omega
    have hbslot : (_internal_hl_add_values_to_region etypes s0
        (mkRegionNode region etypes.length) .REGION_BEGIN).vs.getD k zeroValue
        = { offset := s0.vals.getD k 0, total := 0, read_values := [] } := by
      rw [addBegin_vs_getD etypes s0 _ k hkm hks0]
      simp [mkRegionNode, getD_replicate_self, zeroValue]
    rw [runReads_vs_getD etypes ss _ k hblen hss hk, hbslot,
        emitTailFirst_eq_reverse]
    simp

/-- Witness for C2: two reads after one begin over one delta and one instant
event. -/
theorem claim_C2_witness :
    ((_internal_hl_add_values_to_region [0, 1] sR1 beginNodeDemo
        .REGION_READ).v1.read_values = [2]) ∧
    (((_internal_hl_add_values_to_region [0, 1] sR1 beginNodeDemo
        .REGION_READ).vs.getD 0 zeroValue).read_values = [1]) ∧
    (emitTailFirst ((runReads [0, 1] ssDemo beginNodeDemo).v1.read_values)
        = [2, 5]) ∧
    ((runReads [0, 1] ssDemo beginNodeDemo).v0.read_values = []) ∧
    (emitTailFirst (((runReads [0, 1] ssDemo beginNodeDemo).vs.getD 0
        zeroValue).read_values) = [1, 2]) ∧
    (emitTailFirst (((runReads [0, 1] ssDemo beginNodeDemo).vs.getD 1
        zeroValue).read_values) = [6, 4]) := by
  have h := claim_C2_read_samples [0, 1] sR1 sB1 ssDemo "A" beginNodeDemo
    (by decide) (by decide) (by decide) (by decide)
  exact ⟨h.2.1.trans (by decide),
         ((h.2.2.1 0 (by decide)).trans (by decide)),
         h.2.2.2.1.trans (by decide),
         h.2.2.2.2.1,
         ((h.2.2.2.2.2 0 (by decide)).trans (by decide)),
         ((h.2.2.2.2.2 1 (by decide)).trans (by decide))⟩

/-- C4: when the global begin and end call counts differ at report time,
report generation produces no file, emits the mismatch warning, and marks
output as generated, so a second explicit print call does nothing further. -/
theorem claim_C4_mismatch_skips_output (g : GlobalCtx) (tr : List threads_t)
    (fsOk fsOk2 : Bool) (h1 : g.output_generated = false)
    (h2 : g.tree = some tr) (h3 : g.region_begin_cnt ≠ g.region_end_cnt) :
    _internal_hl_write_output fsOk g =
      ({ g with output_generated := true }, false, true) ∧
    _internal_PAPI_hl_print_output fsOk2 { g with output_generated := true } =
      ({ g with output_generated := true }, false, false) := by
  constructor
  · simp [_internal_hl_write_output, h1, h2, h3]
  · simp [_internal_PAPI_hl_print_output]

/-- Witness for C4 at a concrete store with one unmatched begin. -/
theorem claim_C4_witness :
    gDemo.output_generated = false ∧
    gDemo.region_begin_cnt ≠ gDemo.region_end_cnt ∧
    _internal_hl_write_output true gDemo =
      ({ gDemo with output_generated := true }, false, true) ∧
    _internal_PAPI_hl_print_output true { gDemo with output_generated := true } =
      ({ gDemo with output_generated := true }, false, false) := by
  have h := claim_C4_mismatch_skips_output gDemo trDemo true true rfl rfl
    (by decide)
  exact ⟨rfl, by decide, h.1, h.2⟩

/-- C8: once events have been determined, a further `setEvents` call changes
nothing and returns success. -/
theorem claim_C8_set_events_idempotent (hw : HwOracle)
    (events env : Option String) (g : GlobalCtx) (hstate : g.state = true)
    (hdet : g.events_determined = true) :
    _internal_PAPI_hl_set_events hw events env g = (PAPI_OK, g) := by
  simp [_internal_PAPI_hl_set_events, hstate, hdet]

/-- Witness for C8 on a determined, active context. -/
theorem claim_C8_witness :
    gDemo.state = true ∧ gDemo.events_determined = true ∧
    _internal_PAPI_hl_set_events hwAccepting (some "PAPI_TOT_INS") none gDemo =
      (PAPI_OK, gDemo) :=
  ⟨rfl, rfl,
   claim_C8_set_events_idempotent hwAccepting (some "PAPI_TOT_INS") none gDemo
     rfl rfl⟩

theorem check_clean_ok_iff (es : List Bool) :
    _internal_hl_check_for_clean_thread_states es = PAPI_OK ↔
      ∀ b ∈ es, b = false := by
  induction es with
  | nil => simp [_internal_hl_check_for_clean_thread_states]
  | cons b bs ih =>
      have hne : PAPI_EISRUN ≠ PAPI_OK := by decide
      cases b <;> simp [_internal_hl_check_for_clean_thread_states, ih, hne]

/-- C9: during cleanup, global hardware teardown (`PAPI_shutdown` plus freeing
the component arrays) happens exactly when the count of locally-cleaned
threads equals the thread count known to the hardware layer and the event-set
scan finds no running session; otherwise the component resources remain
held. -/
theorem claim_C9_shutdown_gate (deactivate : Bool) (hwThreads : Nat)
    (es : List Bool) (g : GlobalCtx) (l : LocalCtx) :
    ((_internal_hl_clean_up_all deactivate hwThreads es g l).2 = true ↔
       (g.state = true ∧
        _internal_hl_check_for_clean_thread_states es = PAPI_OK ∧
        hwThreads = (if l.lstate ∧ l.lcomponents then
                       g.num_of_cleaned_threads + 1
                     else g.num_of_cleaned_threads))) ∧
    ((_internal_hl_clean_up_all deactivate hwThreads es g l).2 = false →
       (_internal_hl_clean_up_all deactivate hwThreads es g l).1.1.comps =
         g.comps) ∧
    ((_internal_hl_clean_up_all deactivate hwThreads es g l).2 = true →
       (_internal_hl_clean_up_all deactivate hwThreads es g l).1.1.comps =
         none) ∧
    (_internal_hl_check_for_clean_thread_states es = PAPI_OK ↔
       ∀ b ∈ es, b = false) := by
  refine ⟨?_, ?_, ?_, check_clean_ok_iff es⟩ <;>
    by_cases hls : l.lstate <;> by_cases hlc : l.lcomponents <;>
      by_cases hgs : g.state <;>
        simp [_internal_hl_clean_up_all, _internal_hl_clean_up_local_data,
              _internal_hl_clean_up_global_data, hls, hlc, hgs] <;>
          split_ifs <;> simp_all

theorem clean_up_all_deactivates (hwThreads : Nat) (es : List Bool)
    (g : GlobalCtx) (l : LocalCtx) (hgs : g.state = true) :
    (_internal_hl_clean_up_all true hwThreads es g l).1.1.state = false ∧
    (_internal_hl_clean_up_all true hwThreads es g l).1.1.output_generated =
      true ∧
    (_internal_hl_clean_up_all true hwThreads es g l).1.1.tree =
      g.tree.map (fun _ => ([] : List threads_t)) ∧
    (_internal_hl_clean_up_all true hwThreads es g l).1.2.lstate = false := by
  by_cases hls : l.lstate <;> by_cases hlc : l.lcomponents <;>
    simp [_internal_hl_clean_up_all, _internal_hl_clean_up_local_data,
          _internal_hl_clean_up_global_data, hls, hlc, hgs] <;>
      split_ifs <;> simp_all

/-- C3 counterexample: thread 7 has opened only region "A" (`gDemo`,
`lDemo`).  `regionEnd("B")` returns `PAPI_EINVAL` and deactivates the global
state, contradicting the claim that such a call never deactivates the
system; `regionRead("B")` contradicts the claim differently: it returns
`PAPI_OK`, i.e. no error is surfaced to the caller at all. -/
theorem claim_C3_counterexample :
    gDemo.state = true ∧
    (PAPI_hl_region_end [0] PAPI_OK sDemo 1 [] 7 "B" gDemo lDemo).1 =
      PAPI_EINVAL ∧
    (PAPI_hl_region_end [0] PAPI_OK sDemo 1 [] 7 "B" gDemo lDemo).2.1.state =
      false ∧
    (PAPI_hl_read [0] PAPI_OK sDemo 1 [] 7 "B" gDemo lDemo).1 = PAPI_OK ∧
    (PAPI_hl_read [0] PAPI_OK sDemo 1 [] 7 "B" gDemo lDemo).2.1 = gDemo := by
  decide

/-- C3 amended: a `regionEnd`/`regionRead` call naming a region never opened
on the calling thread creates no node, but the outcome depends on the call
and on the thread-local state: (1) a thread with no successful `regionBegin`
at all gets `PAPI_EMISC` with a warning and nothing changes; (2) a thread
past a begin but whose local event sets are gone gets `PAPI_ENOTRUN` and
nothing changes; (3) with live local event sets and no matching thread node,
both calls return `PAPI_EINVAL` and the escalation deactivates the global
state; (4) with a thread node present but no region node of that name,
`regionRead` returns `PAPI_OK` after a warning and leaves everything
unchanged, while `regionEnd` returns `PAPI_EINVAL`, empties the store and
deactivates both the thread-local and the global state. -/
theorem claim_C3_amended_missing_region (etypes : List Int) (s : Snapshot)
    (hwThreads : Nat) (es : List Bool) (tid : Nat) (region : String)
    (g : GlobalCtx) (l : LocalCtx) (tr : List threads_t)
    (hstate : g.state = true) (htree : g.tree = some tr) :
    (l.lbegin_cnt = 0 →
       PAPI_hl_read etypes PAPI_OK s hwThreads es tid region g l =
           (PAPI_EMISC, g, l) ∧
       PAPI_hl_region_end etypes PAPI_OK s hwThreads es tid region g l =
           (PAPI_EMISC, g, l)) ∧
    (l.lbegin_cnt ≠ 0 → l.lcomponents = false →
       PAPI_hl_read etypes PAPI_OK s hwThreads es tid region g l =
           (PAPI_ENOTRUN, g, l) ∧
       PAPI_hl_region_end etypes PAPI_OK s hwThreads es tid region g l =
           (PAPI_ENOTRUN, g, l)) ∧
    (l.lbegin_cnt ≠ 0 → l.lcomponents = true →
       _internal_hl_find_thread_node tr tid = none →
       (PAPI_hl_read etypes PAPI_OK s hwThreads es tid region g l).1 =
           PAPI_EINVAL ∧
       (PAPI_hl_read etypes PAPI_OK s hwThreads es tid region g l).2.1.state =
           false ∧
       (PAPI_hl_region_end etypes PAPI_OK s hwThreads es tid region g l).1 =
           PAPI_EINVAL ∧
       (PAPI_hl_region_end etypes PAPI_OK s hwThreads es tid region g
           l).2.1.state = false) ∧
    (l.lbegin_cnt ≠ 0 → l.lcomponents = true →
       ∀ t, _internal_hl_find_thread_node tr tid = some t →
       _internal_hl_find_region_node t.value region = none →
         (PAPI_hl_read etypes PAPI_OK s hwThreads es tid region g l) =
             (PAPI_OK, g, l) ∧
         (PAPI_hl_region_end etypes PAPI_OK s hwThreads es tid region g l).1 =
             PAPI_EINVAL ∧
         (PAPI_hl_region_end etypes PAPI_OK s hwThreads es tid region g
             l).2.1.state = false ∧
         (PAPI_hl_region_end etypes PAPI_OK s hwThreads es tid region g
             l).2.1.tree = some [] ∧
         (PAPI_hl_region_end etypes PAPI_OK s hwThreads es tid region g
             l).2.1.output_generated = true ∧
         (PAPI_hl_region_end etypes PAPI_OK s hwThreads es tid region g
             l).2.2.lstate = false) := by
  have hne : ¬(PAPI_EINVAL = PAPI_OK) := by decide
  have hdeact := clean_up_all_deactivates hwThreads es g l hstate
  refine ⟨?_, ?_, ?_, ?_⟩
  · intro h0
    constructor <;> simp [PAPI_hl_read, PAPI_hl_region_end, hstate, h0]
  · intro hbegin hcomp
    constructor <;>
      simp [PAPI_hl_read, PAPI_hl_region_end, hstate, hbegin, hcomp]
  · intro hbegin hcomp hfind
    have hscr : _internal_hl_store_counters etypes s tid region .REGION_READ g
        = (PAPI_EINVAL, g) := by
      simp [_internal_hl_store_counters, htree, hfind]
    have hsce : _internal_hl_store_counters etypes s tid region .REGION_END g
        = (PAPI_EINVAL, g) := by
      simp [_internal_hl_store_counters, htree, hfind]
    refine ⟨?_, ?_, ?_, ?_⟩ <;>
      simp [PAPI_hl_read, PAPI_hl_region_end,
            _internal_hl_read_and_store_counters, hstate, hbegin, hcomp, hscr,
            hsce, hne, hdeact.1]
  · intro hbegin hcomp t hfind hregion
    have hscr : _internal_hl_store_counters etypes s tid region .REGION_READ g
        = (PAPI_OK, g) := by
      simp [_internal_hl_store_counters, htree, hfind, hregion]
    have hsce : _internal_hl_store_counters etypes s tid region .REGION_END g
        = (PAPI_EINVAL, g) := by
      simp [_internal_hl_store_counters, htree, hfind, hregion]
    refine ⟨?_, ?_, ?_, ?_, ?_, ?_⟩ <;>
      simp [PAPI_hl_read, PAPI_hl_region_end,
            _internal_hl_read_and_store_counters, hstate, hbegin, hcomp, hscr,
            hsce, hne, hdeact.1, hdeact.2.1, hdeact.2.2.1, hdeact.2.2.2, htree]

/-- Witness for C3 (amended) at the concrete one-thread store: a thread with
no begin at all gets `PAPI_EMISC` and nothing changes, while the thread that
opened only "A" gets `PAPI_OK` from `regionRead("B")` and `PAPI_EINVAL` plus
full deactivation from `regionEnd("B")`. -/
theorem claim_C3_witness :
    PAPI_hl_read [0] PAPI_OK sDemo 1 [] 7 "B" gDemo lFresh =
      (PAPI_EMISC, gDemo, lFresh) ∧
    PAPI_hl_region_end [0] PAPI_OK sDemo 1 [] 7 "B" gDemo lFresh =
      (PAPI_EMISC, gDemo, lFresh) ∧
    PAPI_hl_read [0] PAPI_OK sDemo 1 [] 7 "B" gDemo lDemo =
      (PAPI_OK, gDemo, lDemo) ∧
    (PAPI_hl_region_end [0] PAPI_OK sDemo 1 [] 7 "B" gDemo lDemo).1 =
      PAPI_EINVAL ∧
    (PAPI_hl_region_end [0] PAPI_OK sDemo 1 [] 7 "B" gDemo lDemo).2.1.state =
      false ∧
    (PAPI_hl_region_end [0] PAPI_OK sDemo 1 [] 7 "B" gDemo lDemo).2.1.tree =
      some [] ∧
    (PAPI_hl_region_end [0] PAPI_OK sDemo 1 [] 7 "B" gDemo
        lDemo).2.1.output_generated = true ∧
    (PAPI_hl_region_end [0] PAPI_OK sDemo 1 [] 7 "B" gDemo lDemo).2.2.lstate =
      false := by
  have h1 := (claim_C3_amended_missing_region [0] sDemo 1 [] 7 "B" gDemo
      lFresh trDemo rfl rfl).1 rfl
  have h4 := ((claim_C3_amended_missing_region [0] sDemo 1 [] 7 "B" gDemo
      lDemo trDemo rfl rfl).2.2.2 (by decide) rfl)
    { key := 7, value := [mkRegionNode "A" 1] } (by decide) (by decide)
  exact ⟨h1.1, h1.2, h4.1, h4.2.1, h4.2.2.1, h4.2.2.2.1, h4.2.2.2.2.1,
         h4.2.2.2.2.2⟩

/-- C5 counterexample: with regions "A" then "B" inserted (stored
newest-first as `["B", "A"]`), the report emits `["A", "B"]` — the regions
appear oldest-insertion-first, not in the store's newest-first order as
claimed. -/
theorem claim_C5_counterexample :
    (_internal_hl_json_regions [] twoRegionThread).map Prod.fst = ["A", "B"] ∧
    twoRegionThread.value.map regions_t.region = ["B", "A"] ∧
    (["A", "B"] : List String) ≠ ["B", "A"] := by
  decide

/-- C5 amended: the report writer walks every doubly-linked list to its tail
and emits following `prev` pointers, so each thread's regions appear
oldest-insertion-first (the reverse of the store's newest-first order), and
each slot's read samples appear chronologically oldest-to-newest, labelled
`read_1`, `read_2`, ... sequentially from 1. -/
theorem claim_C5_amended_emission_order (comps : List components_t)
    (t : threads_t) (v : value_t) (node : regions_t) :
    (_internal_hl_json_regions comps t).map Prod.fst =
      (t.value.map regions_t.region).reverse ∧
    emitTailFirst v.read_values = v.read_values.reverse ∧
    (List.enumFrom 1 (emitTailFirst v.read_values)).map Prod.fst =
      List.range' 1 v.read_values.length ∧
    _internal_hl_json_region_events comps node =
      ((allEventNames comps).zip (allSlots node)).map (fun nv =>
        if nv.2.read_values = [] then (nv.1, EventField.scalar nv.2.total)
        else (nv.1, EventField.withReads nv.2.total
                (List.enumFrom 1 nv.2.read_values.reverse))) := by
  refine ⟨?_, emitTailFirst_eq_reverse _, ?_, ?_⟩
  · simp [_internal_hl_json_regions, emitTailFirst_eq_reverse]
  · rw [emitTailFirst_eq_reverse, List.enumFrom_map_fst, List.length_reverse]
  · simp [_internal_hl_json_region_events, emitTailFirst_eq_reverse]

/-- C6: evaluation of the component builder at the failing input
`"EVA=instant,EVB"` — the suffix-less event `EVB` is stored with the instant
type tag inherited from `EVA=instant`, because the `event_type` variable of
`_internal_hl_create_components` is declared outside the per-event loop and
is only reassigned when a name contains `'='`.  The spec's per-event default
(delta) is the evident intent; the code leaks the previous tag. -/
theorem claim_C6_sticky_type_eval :
    _internal_hl_create_components hwAccepting ["EVA=instant", "EVB"] =
      (PAPI_OK, ["EVA", "EVB"],
       [{ component_id := 0,
          events := [{ name := "EVA", code := 0, etype := 1 },
                     { name := "EVB", code := 0, etype := 1 }] }]) ∧
    assignTypes 0 ["EVA=instant", "EVB"] = [(1, "EVA"), (1, "EVB")] := by
  constructor <;> rfl

/-- C7: evaluation of the user-event parser at the failing input `""` — the
empty explicit specification is reported as success with
`num_of_requested_events = 1` and no parsed name, instead of the error the
spec requires (`num_of_req_events` starts at 1, so the final `== 0` error
check can never fire; the caller then indexes the never-allocated name
array). -/
theorem claim_C7_empty_spec_eval :
    _internal_hl_read_user_events "" = Except.ok ([], 1) := rfl

theorem updateThreadValue_length (tr : List threads_t) (tid : Nat)
    (f : List regions_t → List regions_t) :
    (updateThreadValue tr tid f).length = tr.length := by
  simp [updateThreadValue]

theorem getD_map_of_lt (f : α → β) (l : List α) (i : Nat) (d : β) (d2 : α)
    (h : i < l.length) : (l.map f).getD i d = f (l.getD i d2) := by
  rw [getD_of_lt _ _ _ (by simpa using h), getD_of_lt _ _ _ h,
      List.getElem_map]

theorem updateThreadValue_getD (tr : List threads_t) (tid : Nat)
    (f : List regions_t → List regions_t) (i : Nat) (hi : i < tr.length) :
    (updateThreadValue tr tid f).getD i dThread =
      (if (tr.getD i dThread).key = tid
       then { tr.getD i dThread with value := f (tr.getD i dThread).value }
       else tr.getD i dThread) := by
  rw [updateThreadValue, getD_map_of_lt _ _ _ _ dThread hi]

theorem updateFirstRegion_length (rs : List regions_t) (region : String)
    (f : regions_t → regions_t) :
    (updateFirstRegion rs region f).length = rs.length := by
  induction rs with
  | nil => rfl
  | cons r rest ih =>
      by_cases hr : r.region = region <;> simp [updateFirstRegion, hr, ih]

theorem updateFirstRegion_getD (rs : List regions_t) (region : String)
    (f : regions_t → regions_t) (j : Nat) :
    (updateFirstRegion rs region f).getD j dRegion = rs.getD j dRegion ∨
    ((rs.getD j dRegion).region = region ∧
      (updateFirstRegion rs region f).getD j dRegion =
        f (rs.getD j dRegion)) := by
  induction rs generalizing j with
  | nil => left; rfl
  | cons r rest ih =>
      by_cases hr : r.region = region
      · cases j with
        | zero => right; simp [updateFirstRegion, hr]
        | succ j => left; simp [updateFirstRegion, hr]
      · cases j with
        | zero => left; simp [updateFirstRegion, hr]
        | succ j => simpa [updateFirstRegion, hr] using ih j

/-- C10: a `regionBegin` that finds an already-existing region node only
rewrites per-slot offsets: the node's stored name, every slot's total and
read-sample list, all other region nodes of that thread, and all other
threads are unchanged; totals are zeroed and sample lists emptied only when
a node is first created. -/
theorem claim_C10_begin_frame (etypes : List Int) (s : Snapshot) (tid : Nat)
    (region : String) (g : GlobalCtx) (tr : List threads_t) (t : threads_t)
    (rn : regions_t) (htree : g.tree = some tr)
    (hfind : _internal_hl_find_thread_node tr tid = some t)
    (hregion : _internal_hl_find_region_node t.value region = some rn)
    (halign : ∀ t2 ∈ tr, ∀ r ∈ t2.value, r.vs.length ≤ s.vals.length) :
    (_internal_hl_store_counters etypes s tid region .REGION_BEGIN g).1 =
        PAPI_OK ∧
    (_internal_hl_store_counters etypes s tid region .REGION_BEGIN g).2.tree =
        some (beginUpdate etypes s tid region tr) ∧
    (beginUpdate etypes s tid region tr).length = tr.length ∧
    (∀ i, i < tr.length →
      ((tr.getD i dThread).key ≠ tid →
        (beginUpdate etypes s tid region tr).getD i dThread =
          tr.getD i dThread) ∧
      ((beginUpdate etypes s tid region tr).getD i dThread).key =
        (tr.getD i dThread).key ∧
      ((beginUpdate etypes s tid region tr).getD i dThread).value.length =
        (tr.getD i dThread).value.length ∧
      (∀ j, j < (tr.getD i dThread).value.length →
        ((((tr.getD i dThread).value.getD j dRegion).region ≠ region →
          ((beginUpdate etypes s tid region tr).getD i
              dThread).value.getD j dRegion =
            (tr.getD i dThread).value.getD j dRegion) ∧
        (((beginUpdate etypes s tid region tr).getD i
            dThread).value.getD j dRegion).region =
          ((tr.getD i dThread).value.getD j dRegion).region ∧
        (((beginUpdate etypes s tid region tr).getD i
            dThread).value.getD j dRegion).v0.total =
          ((tr.getD i dThread).value.getD j dRegion).v0.total ∧
        (((beginUpdate etypes s tid region tr).getD i
            dThread).value.getD j dRegion).v0.read_values =
          ((tr.getD i dThread).value.getD j dRegion).v0.read_values ∧
        (((beginUpdate etypes s tid region tr).getD i
            dThread).value.getD j dRegion).v1.total =
          ((tr.getD i dThread).value.getD j dRegion).v1.total ∧
        (((beginUpdate etypes s tid region tr).getD i
            dThread).value.getD j dRegion).v1.read_values =
          ((tr.getD i dThread).value.getD j dRegion).v1.read_values ∧
        (((beginUpdate etypes s tid region tr).getD i
            dThread).value.getD j dRegion).vs.length =
          ((tr.getD i dThread).value.getD j dRegion).vs.length ∧
        (∀ k, k < ((tr.getD i dThread).value.getD j dRegion).vs.length →
          ((((beginUpdate etypes s tid region tr).getD i
              dThread).value.getD j dRegion).vs.getD k zeroValue).total =
            (((tr.getD i dThread).value.getD j
                dRegion).vs.getD k zeroValue).total ∧
          ((((beginUpdate etypes s tid region tr).getD i
              dThread).value.getD j dRegion).vs.getD k
              zeroValue).read_values =
            (((tr.getD i dThread).value.getD j
                dRegion).vs.getD k zeroValue).read_values)))) ∧
    (∀ nm n, (mkRegionNode nm n).v0 = zeroValue ∧
      (mkRegionNode nm n).v1 = zeroValue ∧
      ∀ k, (mkRegionNode nm n).vs.getD k zeroValue = zeroValue) := by
  refine ⟨?_, ?_, updateThreadValue_length tr tid _, ?_, ?_⟩
  · simp [_internal_hl_store_counters, htree, hfind, hregion]
  · simp [_internal_hl_store_counters, htree, hfind, hregion, beginUpdate]
  · intro i hi
    have hu := updateThreadValue_getD tr tid
      (fun rs => updateFirstRegion rs region (fun n =>
        _internal_hl_add_values_to_region etypes s n .REGION_BEGIN)) i hi
    by_cases hkey : (tr.getD i dThread).key = tid
    · have hnew : (beginUpdate etypes s tid region tr).getD i dThread =
          { tr.getD i dThread with
            value := updateFirstRegion (tr.getD i dThread).value region
              (fun n =>
                _internal_hl_add_values_to_region etypes s n .REGION_BEGIN) } := by
        rw [beginUpdate, hu, if_pos hkey]
      rw [hnew]
      refine ⟨fun hne => absurd hkey hne, rfl,
              updateFirstRegion_length _ _ _, ?_⟩
      intro j hj
      have hmem_t : tr.getD i dThread ∈ tr := by
        rw [getD_of_lt _ _ _ hi]
        exact List.getElem_mem hi
      have hmem_r : (tr.getD i dThread).value.getD j dRegion ∈
          (tr.getD i dThread).value := by
        rw [getD_of_lt _ _ _ hj]
        exact List.getElem_mem hj
      have hle := halign _ hmem_t _ hmem_r
      rcases updateFirstRegion_getD (tr.getD i dThread).value region
          (fun n => _internal_hl_add_values_to_region etypes s n .REGION_BEGIN)
          j with hcase | ⟨hrname, hcase⟩
      · rw [hcase]
        exact ⟨fun _ => rfl, rfl, rfl, rfl, rfl, rfl, rfl,
               fun k _ => ⟨rfl, rfl⟩⟩
      · rw [hcase]
        refine ⟨fun hne => absurd hrname hne, addBegin_region _ _ _, ?_, ?_,
                ?_, ?_, ?_, ?_⟩
        · rw [addBegin_v0]
        · rw [addBegin_v0]
        · rw [addBegin_v1]
        · rw [addBegin_v1]
        · rw [addBegin_vs_length]
          omega
        · intro k hk
          have hks : k < s.vals.length := by omega
          rw [addBegin_vs_getD etypes s _ k hk hks]
          exact ⟨rfl, rfl⟩
    · have hnew : (beginUpdate etypes s tid region tr).getD i dThread =
          tr.getD i dThread := by
        rw [beginUpdate, hu, if_neg hkey]
      rw [hnew]
      exact ⟨fun _ => rfl, rfl, rfl,
             fun j _ => ⟨fun _ => rfl, rfl, rfl, rfl, rfl, rfl, rfl,
                         fun k _ => ⟨rfl, rfl⟩⟩⟩
  · intro nm n
    exact ⟨rfl, rfl, fun k => by simp [mkRegionNode, getD_replicate_self]⟩

/-- Witness for C10 at the concrete one-thread store with existing node
"A". -/
theorem claim_C10_witness :
    (_internal_hl_store_counters [0] sDemo 7 "A" .REGION_BEGIN gDemo).1 =
        PAPI_OK ∧
    (((beginUpdate [0] sDemo 7 "A" trDemo).getD 0
        dThread).value.getD 0 dRegion).region = "A" ∧
    (((beginUpdate [0] sDemo 7 "A" trDemo).getD 0
        dThread).value.getD 0 dRegion).v0.total = 0 ∧
    (((beginUpdate [0] sDemo 7 "A" trDemo).getD 0
        dThread).value.getD 0 dRegion).v1.read_values = [] ∧
    ((((beginUpdate [0] sDemo 7 "A" trDemo).getD 0
        dThread).value.getD 0 dRegion).vs.getD 0 zeroValue).total = 0 := by
  have h := claim_C10_begin_frame [0] sDemo 7 "A" gDemo trDemo
    { key := 7, value := [mkRegionNode "A" 1] } (mkRegionNode "A" 1) rfl
    (by decide) (by decide) (by decide)
  have hj := (h.2.2.2.1 0 (by decide)).2.2.2 0 (by decide)
  exact ⟨h.1, hj.2.1.trans (by decide), hj.2.2.1.trans (by decide),
         hj.2.2.2.2.2.1.trans (by decide),
         ((hj.2.2.2.2.2.2.2 0 (by decide)).1).trans (by decide)⟩

end PapiHl
